import Mathlib

/-!
Verification of the dependency-graph tool (`main.py`) against its
natural-language specification.  The Python source is shallowly embedded:
pure validation functions become Lean functions over an explicit model of
the Python values they receive, the regex-based manifest scanning is
translated into explicit character-list scanners with the exact matching
semantics of the regular expressions in the source, and the network /
filesystem effects are modelled by passing the environment (HTTP responses,
extracted directory entries) as explicit arguments.  Python exceptions
become `Except` / explicit error results; the Russian diagnostic strings are
kept verbatim.
-/

/-! ## Python string primitives

`str.strip()` / `str.lower()` / whitespace, modelled on ASCII whitespace
(the inputs exercised by the specification are ASCII).  Python's `\s` and
`str.strip()` use the same six ASCII whitespace characters on such inputs.
-/

/-- ASCII whitespace as recognised by Python's `str.strip` and `\s`. -/
def pyIsSpace (c : Char) : Bool :=
  c == ' ' || c == '\t' || c == '\n' || c == '\r' || c == '\x0b' || c == '\x0c'

/-- `str.strip()` on a character list: drop whitespace from both ends. -/
def pyStripList (cs : List Char) : List Char :=
  ((cs.dropWhile pyIsSpace).reverse.dropWhile pyIsSpace).reverse

/-- `str.strip()`. -/
def pyStrip (s : String) : String := ⟨pyStripList s.data⟩

/-- `str.lower()` (ASCII case mapping; the unicode cases are not exercised). -/
def pyLower (s : String) : String := ⟨s.data.map Char.toLower⟩

/-- Does `pat` occur as a prefix of `s` (character lists)? -/
def startsWithL : List Char → List Char → Bool
  | [], _ => true
  | _ :: _, [] => false
  | p :: ps, c :: cs => p == c && startsWithL ps cs

/-- Does `pat` occur as a contiguous substring of `s` (character lists)? -/
def containsL (pat : List Char) : List Char → Bool
  | [] => pat.isEmpty
  | c :: cs => startsWithL pat (c :: cs) || containsL pat cs

/-- Python `s.startswith(pat)`. -/
def strStarts (s pat : String) : Bool := startsWithL pat.data s.data

/-- Python `s.endswith(pat)`. -/
def strEnds (s pat : String) : Bool := startsWithL pat.data.reverse s.data.reverse

/-- Python `pat in s` (substring containment). -/
def strOccurs (s pat : String) : Bool := containsL pat.data s.data

/-! ## Parameter Validator (`main.py`, lines 22-76)

Validation failures (`ValueError` in the source, `InvalidInput` in the
spec's taxonomy) are modelled as `Except.error` carrying the exact message.
-/

/-- Splits off the text before the first occurrence of `sep`, and the
remainder after that occurrence when there is one.  The building block of
Python's `str.split(sep)`. -/
def splitOnAux (sep : List Char) : List Char → List Char × Option (List Char)
  | [] => ([], none)
  | c :: cs =>
    if startsWithL sep (c :: cs) then ([], some ((c :: cs).drop sep.length))
    else
      let r := splitOnAux sep cs
      (c :: r.1, r.2)

/-- Python `s.split(sep)[1]`: the text between the first and second
occurrence of `sep` (to the end when `sep` occurs only once); `none` when
`sep` does not occur at all (where Python would raise `IndexError`). -/
def pySplitSecond (sep cs : List Char) : Option (List Char) :=
  match (splitOnAux sep cs).2 with
  | some r => some (splitOnAux sep r).1
  | none => none

/-- `repo.split('://')[1].split('/')[0]` from `validate_repository`
(line 33): the host segment of a URL-shaped repository locator. -/
def hostSegment (r : String) : String :=
  ⟨((pySplitSecond ("://".data) r.data).getD []).takeWhile (fun c => c != '/')⟩

/-- `validate_repository` (lines 22-40).  `none` models a `None` argument
(Python's non-string inputs other than `None` take the same error path and
are not modelled separately). -/
def validate_repository (repo : Option String) : Except String String :=
  match repo with
  | none => .error "URL репозитория или путь к файлу должен быть непустой строкой"
  | some s =>
    if s = "" then .error "URL репозитория или путь к файлу должен быть непустой строкой"
    else
      let r := pyStrip s
      if r = "" then .error "URL репозитория или путь к файлу должен быть непустой строкой"
      else if strStarts r "http://" || strStarts r "https://" then
        if !(strOccurs r "://") || !((hostSegment r).data.contains '.') then
          .error "Некорректный формат URL репозитория"
        else .ok r
      else .ok r

/-- The valid run modes (line 51). -/
def valid_modes : List String := ["production", "development", "test"]

/-- The `ValueError` message for a rejected mode (line 55). -/
def modeErrMsg (m : String) : String :=
  "Недопустимый режим работы: " ++ m ++ ". Допустимые значения: " ++
    String.intercalate ", " valid_modes

/-- `validate_mode` (lines 43-57).  `none` models a `None` argument. -/
def validate_mode (mode : Option String) : Except String String :=
  match mode with
  | none => .ok "production"
  | some s =>
    let m := pyStrip (pyLower s)
    if m ∈ valid_modes then .ok m
    else .error (modeErrMsg m)

/-! ### `validate_depth` and Python `int()` coercion -/

/-- A Python value as received by `validate_depth`: `None`, an `int`, a
`str`, or a `float`.  A finite Python float is exactly a (binary) rational
number, so it is modelled by its exact rational value. -/
inductive PyVal where
  | vnone
  | vint (n : Int)
  | vstr (s : String)
  | vfloat (q : ℚ)
deriving DecidableEq

/-- Decimal value of a digit list. -/
def digitsToNat (cs : List Char) : Nat :=
  cs.foldl (fun a c => a * 10 + (c.toNat - 48)) 0

/-- Python `int()` applied to a string: strip whitespace, optional sign,
then a non-empty run of decimal digits; anything else raises `ValueError`.
(Underscore digit separators are not modelled.) -/
def pyIntOfString (s : String) : Except String Int :=
  let t := pyStripList s.data
  let p : Int × List Char :=
    match t with
    | '+' :: r => (1, r)
    | '-' :: r => (-1, r)
    | r => (1, r)
  if !p.2.isEmpty && p.2.all (fun c => c.isDigit) then
    .ok (p.1 * (digitsToNat p.2 : Int))
  else .error "invalid literal for int with base 10"

/-- Truncation of a rational toward zero: the value of Python `int()` on
the float whose exact value is `q`. -/
def ratTrunc (q : ℚ) : Int := q.num.tdiv q.den

/-- Python `int(v)` (line 66): identity on ints, decimal parse on strings,
truncation toward zero on floats, `TypeError` on `None`. -/
def pyInt : PyVal → Except String Int
  | .vnone => .error "TypeError"
  | .vint n => .ok n
  | .vstr s => pyIntOfString s
  | .vfloat q => .ok (ratTrunc q)

/-- `validate_depth` (lines 60-76). -/
def validate_depth (depth : PyVal) : Except String Int :=
  match depth with
  | .vnone => .ok 3
  | d =>
    match pyInt d with
    | .error _ => .error "Максимальная глубина анализа должна быть целым числом"
    | .ok n =>
      if n < 1 then .error "Максимальная глубина анализа должна быть положительным числом"
      else if n > 10 then .error "Максимальная глубина анализа не должна превышать 10"
      else .ok n

deriving instance DecidableEq for Except

/-! ## Archive Manifest Extractor: manifest parsing (`main.py`, lines 79-121)

`extract_dependencies_from_cargo_toml` reads a file and scans it with three
regular expressions.  The file read is abstracted: the embedding takes the
manifest text directly.  Each regex is translated into an explicit scanner
with the exact matching semantics of the Python `re` calls (leftmost
non-overlapping matches; greedy repetition, which is deterministic here
because every repeated character class is disjoint from what follows it).
-/

/-- The character class `[a-zA-Z0-9_-]` of the dependency-line regex. -/
def isIdentChar (c : Char) : Bool :=
  c.isAlpha || c.isDigit || c == '_' || c == '-'

/-- After an opening `[`: the greedy `[^\]]+` capture up to the first `]`,
with the remainder after that `]`; `none` when no `]` follows. -/
def takeHeader : List Char → Option (List Char × List Char)
  | [] => none
  | ']' :: rest => some ([], rest)
  | c :: rest =>
    match takeHeader rest with
    | some p => some (c :: p.1, p.2)
    | none => none

/-- The lazy `(.*?)` body capture of the section regex (with `re.DOTALL`),
stopped by the lookahead `(?=\n\[|$)`: the body ends at the first position
followed by `\n[`, at the end of the text, or just before a final newline.
Returns the body and the unconsumed remainder. -/
def takeBody : List Char → List Char × List Char
  | [] => ([], [])
  | ['\n'] => ([], ['\n'])
  | '\n' :: '[' :: rest => ([], '\n' :: '[' :: rest)
  | c :: rest =>
    let r := takeBody rest
    (c :: r.1, r.2)

/-- `re.findall` scan for `\[([^\]]+)\](.*?)(?=\n\[|$)` (line 87): walk the
text, and at each `[` try to match a non-empty header followed by a lazy
body.  The fuel argument bounds the recursion; `length + 1` always
suffices, since every step consumes at least one character. -/
def scanSectionsFuel : Nat → List Char → List (List Char × List Char)
  | 0, _ => []
  | _ + 1, [] => []
  | fuel + 1, c :: cs =>
    if c == '[' then
      match takeHeader cs with
      | none => []
      | some p =>
        if p.1.isEmpty then scanSectionsFuel fuel cs
        else
          let br := takeBody p.2
          (p.1, br.1) :: scanSectionsFuel fuel br.2
    else scanSectionsFuel fuel cs

/-- All `[section]` headers with their bodies, in text order (line 87). -/
def findSections (content : String) : List (String × String) :=
  (scanSectionsFuel (content.data.length + 1) content.data).map
    (fun p => (⟨p.1⟩, ⟨p.2⟩))

/-- One attempt of `^\s*([a-zA-Z0-9_-]+)\s*=\s*(.*)$` (line 95, with
`re.MULTILINE`) at a line-start position.  Each `\s*` may cross newlines;
greediness is deterministic because whitespace, identifier characters and
`=` are pairwise disjoint, and `(.*)` runs to the end of the line.  Returns
the two captures and the remainder after the match. -/
def takeAssign (cs : List Char) : Option (List Char × List Char × List Char) :=
  let r1 := cs.dropWhile pyIsSpace
  let name := r1.takeWhile isIdentChar
  if name.isEmpty then none
  else
    match (r1.dropWhile isIdentChar).dropWhile pyIsSpace with
    | '=' :: r3 =>
      let r4 := r3.dropWhile pyIsSpace
      some (name, r4.takeWhile (fun c => c != '\n'), r4.dropWhile (fun c => c != '\n'))
    | _ => none

/-- The text after the next newline: the next position where the `^` anchor
of the multiline dependency-line regex can match. -/
def afterNewline (cs : List Char) : List Char :=
  (cs.dropWhile (fun c => c != '\n')).drop 1

/-- `re.findall` scan for the multiline dependency-line regex: try a match
at each line start, resuming after the matched line.  Fuel as in
`scanSectionsFuel`. -/
def findAssignsFuel : Nat → List Char → List (List Char × List Char)
  | 0, _ => []
  | _ + 1, [] => []
  | fuel + 1, c :: cs =>
    match takeAssign (c :: cs) with
    | some r => (r.1, r.2.1) :: findAssignsFuel fuel (afterNewline r.2.2)
    | none => findAssignsFuel fuel (afterNewline (c :: cs))

/-- All `name = value` matches of a section body, in order (line 95). -/
def findAssigns (sbody : String) : List (String × String) :=
  (findAssignsFuel (sbody.data.length + 1) sbody.data).map
    (fun p => (⟨p.1⟩, ⟨p.2⟩))

/-- `dep_value.split('#')[0]` (line 101): the text before the first `#`. -/
def beforeHash (v : String) : String :=
  ⟨v.data.takeWhile (fun c => c != '#')⟩

/-- `dep_value[1:-1]` (line 105): drop the first and last character. -/
def stripEnds (v : String) : String :=
  ⟨(v.data.drop 1).dropLast⟩

/-- One attempt of `re.search(r'version\s*=\s*"([^"]+)"', ...)` (line 110)
at a fixed position: the literal `version`, optional whitespace, `=`,
optional whitespace, then a quoted non-empty capture. -/
def matchVersionAt (cs : List Char) : Option (List Char) :=
  if startsWithL ("version".data) cs then
    match (cs.drop 7).dropWhile pyIsSpace with
    | '=' :: r2 =>
      match r2.dropWhile pyIsSpace with
      | '"' :: r4 =>
        let g := r4.takeWhile (fun c => c != '"')
        if g.isEmpty then none
        else
          match r4.dropWhile (fun c => c != '"') with
          | '"' :: _ => some g
          | _ => none
      | _ => none
    | _ => none
  else none

/-- `re.search`: the leftmost position where `matchVersionAt` succeeds. -/
def searchVersionL : List Char → Option (List Char)
  | [] => none
  | c :: cs =>
    match matchVersionAt (c :: cs) with
    | some g => some g
    | none => searchVersionL cs

/-- The `version = "..."` entry of an inline-table dependency value. -/
def searchVersion (v : String) : Option String :=
  (searchVersionL v.data).map (fun l => (⟨l⟩ : String))

/-- A `{name, version}` record appended by the manifest scan. -/
structure TomlDep where
  name : String
  version : String
deriving DecidableEq, Repr

/-- The loop body of lines 97-119: strip the trailing comment from the
value, then classify it as a quoted literal, an inline table (searched for
`version = "..."`), or anything else (recorded as `unknown`). -/
def depLine (deps2 : List TomlDep) (dm : String × String) : List TomlDep :=
  let dep_name := pyStrip dm.1
  let dep_value := pyStrip (beforeHash dm.2)
  if strStarts dep_value "\"" && strEnds dep_value "\"" then
    deps2 ++ [⟨dep_name, stripEnds dep_value⟩]
  else if strStarts dep_value "\x7b" && strEnds dep_value "\x7d" then
    match searchVersion dep_value with
    | some v => deps2 ++ [⟨dep_name, v⟩]
    | none => deps2 ++ [⟨dep_name, "unknown"⟩]
  else deps2 ++ [⟨dep_name, "unknown"⟩]

/-- `extract_dependencies_from_cargo_toml` (lines 79-121), over the text of
the manifest: scan sections, keep those named `dependencies` or prefixed
`dependencies.`, and collect one record per matched assignment line. -/
def extract_dependencies_from_cargo_toml (content : String) : List TomlDep :=
  (findSections content).foldl
    (fun deps sec =>
      if pyStrip sec.1 == "dependencies" || strStarts (pyStrip sec.1) "dependencies." then
        (findAssigns sec.2).foldl depLine deps
      else deps)
    []

/-- The value interpretation exactly as the specification words it: a
double-quoted literal yields that literal, a brace-delimited inline table
yields its `version = "..."` entry or the sentinel `unknown`, and any other
shape yields `unknown`. -/
def interpretDepValue (v : String) : String :=
  if strStarts v "\"" && strEnds v "\"" then stripEnds v
  else if strStarts v "\x7b" && strEnds v "\x7d" then (searchVersion v).getD "unknown"
  else "unknown"

/-- The specification's description of the whole extraction: the ordered
concatenation, over dependency sections in text order, of the
`{name, interpreted value}` pairs of their assignment lines. -/
def cargoDepsSpec (content : String) : List TomlDep :=
  (((findSections content).filter
      (fun sec => pyStrip sec.1 == "dependencies" || strStarts (pyStrip sec.1) "dependencies.")).map
    (fun sec => (findAssigns sec.2).map
      (fun dm => ⟨pyStrip dm.1, interpretDepValue (pyStrip (beforeHash dm.2))⟩))).flatten

/-! ## Registry Client (`main.py`, lines 184-216)

The crates.io API is modelled by an explicit environment `http` mapping a
URL to the response (status code and already-parsed JSON body; a body that
fails to parse as JSON would raise before any status-independent code runs
and is not modelled).  Python exceptions escaping the function are
modelled by `PyErr`: `RuntimeError` is what the spec calls `RegistryError`,
the `KeyError` / `TypeError` cases are unexpected errors.
-/

/-- A parsed JSON value. -/
inductive Json where
  | null
  | bool (b : Bool)
  | num (n : Int)
  | str (s : String)
  | arr (elems : List Json)
  | obj (fields : List (String × Json))

/-- Python exceptions escaping the registry client. -/
inductive PyErr where
  | runtimeError (msg : String)
  | keyError (key : String)
  | typeError (msg : String)
deriving DecidableEq, Repr

/-- Python `d[k]` on a parsed JSON value: field lookup on an object,
`KeyError` when the key is absent, `TypeError` on a non-object. -/
def jGet (j : Json) (k : String) : Except PyErr Json :=
  match j with
  | .obj fields =>
    match List.lookup k fields with
    | some v => .ok v
    | none => .error (.keyError k)
  | _ => .error (.typeError "value is not subscriptable")

/-- Python `d.get(k, default)`: field lookup with a default, never
raising.  (It is only reached after a successful `d[...]`, so the
non-object case is unreachable and returns the default.) -/
def jGetD (j : Json) (k : String) (dflt : Json) : Json :=
  match j with
  | .obj fields => (List.lookup k fields).getD dflt
  | _ => dflt

/-- Python `str(v)` as used by the f-string URL interpolation (line 197).
Exercised only on strings by the registry endpoints; container rendering is
abbreviated. -/
def pyStr : Json → String
  | .null => "None"
  | .bool true => "True"
  | .bool false => "False"
  | .num n => toString n
  | .str s => s
  | .arr _ => "[...]"
  | .obj _ => "\x7b...\x7d"

/-- An HTTP response: status code and parsed JSON body. -/
structure HttpResponse where
  status : Nat
  body : Json

/-- The record built for each dependency object (lines 207-214), a Python
dict with these six keys. -/
structure DependencyRecord where
  name : Json
  version : Json
  optional : Json
  default_features : Json
  features : Json
  kind : Json

/-- The loop body of lines 206-214: `crate_id`, `req` and `optional` are
required subscripts (a missing key raises `KeyError`), the other three are
`d.get(...)` with defaults `None`, `[]` and `None`. -/
def mkDepRecord (d : Json) : Except PyErr DependencyRecord := do
  let n ← jGet d "crate_id"
  let req ← jGet d "req"
  let opt ← jGet d "optional"
  return { name := n, version := req, optional := opt,
           default_features := jGetD d "default_features" Json.null,
           features := jGetD d "features" (Json.arr []),
           kind := jGetD d "kind" Json.null }

/-- `get_direct_dependencies_from_crates_io` (lines 184-216): resolve the
latest version from the metadata endpoint, then fetch and map the
dependency list.  A non-200 status on either call raises `RuntimeError`
with a fixed message. -/
def get_direct_dependencies_from_crates (crate_name repository_url : String)
    (http : String → HttpResponse) : Except PyErr (List DependencyRecord) :=
  let response := http (repository_url ++ crate_name)
  if response.status ≠ 200 then .error (.runtimeError "Не удалось получить данные пакета")
  else
    match jGet response.body "crate" with
    | .error e => .error e
    | .ok crateObj =>
      match jGet crateObj "max_version" with
      | .error e => .error e
      | .ok version =>
        let deps_resp :=
          http (repository_url ++ crate_name ++ "/" ++ pyStr version ++ "/dependencies")
        if deps_resp.status ≠ 200 then
          .error (.runtimeError "Не удалось получить список зависимостей")
        else
          match jGet deps_resp.body "dependencies" with
          | .error e => .error e
          | .ok depsJson =>
            match depsJson with
            | .arr ds => ds.mapM mkDepRecord
            | _ => .error (.typeError "value is not iterable")

/-! ## Archive Manifest Extractor: archive handling (`main.py`, lines 148-181)

`extract_cargo_toml_from_archive` writes the archive bytes to a temporary
file, unpacks it inside a `try` block and removes the temporary file in the
`finally` block.  The filesystem effects are modelled by an environment:
whether `tarfile` unpacking succeeds, the `os.listdir(temp_dir)` result
after unpacking, and the set of paths for which `os.path.exists` holds.
The function returns the Python outcome together with the final existence
of the temporary archive file, which starts `true` when the bytes are
persisted (line 151-153) and is set `false` by `os.unlink` in the `finally`
block (line 181), reached on every exit path of the `try`.
-/

/-- Python exceptions escaping the archive extractor.  `fileNotFoundError`
is what the spec calls `ExtractionError`; `unexpectedError` stands for any
other exception raised while unpacking (e.g. a `tarfile.ReadError` on a
malformed archive). -/
inductive PyExc where
  | fileNotFoundError (msg : String)
  | unexpectedError (msg : String)
deriving DecidableEq, Repr

/-- Outcome of a Python call: a value or a raised exception. -/
inductive PyResult (α : Type) where
  | ok (a : α)
  | exc (e : PyExc)
deriving DecidableEq, Repr

/-- The filesystem environment of one `extract_cargo_toml_from_archive`
call, determined by the archive bytes and the scratch directory. -/
structure ExtractEnv where
  tarOk : Bool
  tarErrorMsg : String
  entries : List String
  files : List String
deriving DecidableEq, Repr

/-- The body of the `try` block (lines 156-177): unpack the archive, fail
on an empty extraction result, then look for `Cargo.toml` under the first
top-level extracted directory. -/
def extractTryBody (env : ExtractEnv) (temp_dir : String) : PyResult String :=
  if !env.tarOk then .exc (.unexpectedError env.tarErrorMsg)
  else
    match env.entries with
    | [] => .exc (.fileNotFoundError "Архив пустой")
    | d :: _ =>
      let crate_dir := temp_dir ++ "/" ++ d
      let cargo_toml_path := crate_dir ++ "/" ++ "Cargo.toml"
      if env.files.contains cargo_toml_path then .ok cargo_toml_path
      else .exc (.fileNotFoundError "Файл Cargo.toml не найден в архиве пакета")

/-- `extract_cargo_toml_from_archive` (lines 148-181): persist the bytes to
a temporary file (existence flag becomes `true`), run the `try` body, then
unconditionally run the `finally` block, which unlinks the temporary file
(existence flag becomes `false`) whatever the body's outcome was.  The
second component is the final existence of the temporary archive file. -/
def extract_cargo_toml_from_archive (env : ExtractEnv) (temp_dir : String) :
    PyResult String × Bool :=
  let tempFileExists := true
  let body := extractTryBody env temp_dir
  let tempFileExistsAfterFinally := !tempFileExists && tempFileExists
  (body, tempFileExistsAfterFinally)

/-! ## Helper lemmas -/

theorem startsWithL_exists {p s : List Char} (h : startsWithL p s = true) :
    ∃ t, s = p ++ t := by
  induction p generalizing s with
  | nil => exact ⟨s, rfl⟩
  | cons a ps ih =>
    cases s with
    | nil => simp [startsWithL] at h
    | cons c cs =>
      simp only [startsWithL, Bool.and_eq_true, beq_iff_eq] at h
      obtain ⟨t, ht⟩ := ih h.2
      exact ⟨t, by rw [List.cons_append, ← h.1, ← ht]⟩

theorem startsWithL_append_self (pat t : List Char) :
    startsWithL pat (pat ++ t) = true := by
  induction pat with
  | nil => rfl
  | cons a ps ih => simp [startsWithL, ih]

theorem containsL_of_starts {pat s : List Char} (h : startsWithL pat s = true) :
    containsL pat s = true := by
  cases s with
  | nil => cases pat with
    | nil => rfl
    | cons a ps => simp [startsWithL] at h
  | cons c cs => simp [containsL, h]

theorem containsL_append {pat s : List Char} (pre : List Char)
    (h : containsL pat s = true) : containsL pat (pre ++ s) = true := by
  induction pre with
  | nil => exact h
  | cons c cs ih => simp [containsL, ih]

theorem occurs_of_scheme {r : String}
    (h : strStarts r "http://" = true ∨ strStarts r "https://" = true) :
    strOccurs r "://" = true := by
  unfold strOccurs
  rcases h with h | h
  · obtain ⟨t, ht⟩ := startsWithL_exists h
    rw [ht]
    show containsL ("://".data) (['h', 't', 't', 'p'] ++ ("://".data ++ t)) = true
    exact containsL_append _ (containsL_of_starts (startsWithL_append_self _ t))
  · obtain ⟨t, ht⟩ := startsWithL_exists h
    rw [ht]
    show containsL ("://".data) (['h', 't', 't', 'p', 's'] ++ ("://".data ++ t)) = true
    exact containsL_append _ (containsL_of_starts (startsWithL_append_self _ t))

theorem validate_depth_ok {v : PyVal} {n : Int} (hv : v ≠ PyVal.vnone)
    (h : pyInt v = .ok n) :
    validate_depth v =
      if n < 1 then .error "Максимальная глубина анализа должна быть положительным числом"
      else if n > 10 then .error "Максимальная глубина анализа не должна превышать 10"
      else .ok n := by
  cases v with
  | vnone => exact absurd rfl hv
  | vint m => rw [validate_depth, h]; exact fun hc => PyVal.noConfusion hc
  | vstr s => rw [validate_depth, h]; exact fun hc => PyVal.noConfusion hc
  | vfloat q => rw [validate_depth, h]; exact fun hc => PyVal.noConfusion hc

theorem validate_depth_err {v : PyVal} {e : String} (hv : v ≠ PyVal.vnone)
    (h : pyInt v = .error e) :
    validate_depth v = .error "Максимальная глубина анализа должна быть целым числом" := by
  cases v with
  | vnone => exact absurd rfl hv
  | vint m => rw [validate_depth, h]; exact fun hc => PyVal.noConfusion hc
  | vstr s => rw [validate_depth, h]; exact fun hc => PyVal.noConfusion hc
  | vfloat q => rw [validate_depth, h]; exact fun hc => PyVal.noConfusion hc

/-! ## Claim theorems: the Parameter Validator -/

/-- Claim C4: `validate_depth` returns 3 for absent input; a coercible
input with coerced value in the inclusive range `[1, 10]` yields that
integer; a coerced value below 1 fails with the positivity message, one
above 10 with the upper-bound message, and a non-coercible input fails
with the integer-type message. -/
theorem validate_depth_contract :
    validate_depth PyVal.vnone = .ok 3
    ∧ (∀ v n, pyInt v = .ok n → 1 ≤ n → n ≤ 10 → validate_depth v = .ok n)
    ∧ (∀ v n, pyInt v = .ok n → n < 1 →
        validate_depth v = .error "Максимальная глубина анализа должна быть положительным числом")
    ∧ (∀ v n, pyInt v = .ok n → 10 < n →
        validate_depth v = .error "Максимальная глубина анализа не должна превышать 10")
    ∧ (∀ v e, v ≠ PyVal.vnone → pyInt v = .error e →
        validate_depth v = .error "Максимальная глубина анализа должна быть целым числом") := by
  have hnn : ∀ (v : PyVal) (n : Int), pyInt v = .ok n → v ≠ PyVal.vnone := by
    rintro v n h rfl
    simp [pyInt] at h
  refine ⟨rfl, ?_, ?_, ?_, fun v e hv he => validate_depth_err hv he⟩
  · intro v n h h1 h10
    rw [validate_depth_ok (hnn v n h) h, if_neg (by omega), if_neg (by omega)]
  · intro v n h hlt
    rw [validate_depth_ok (hnn v n h) h, if_pos hlt]
  · intro v n h hgt
    rw [validate_depth_ok (hnn v n h) h, if_neg (by omega), if_pos hgt]

/-- Witness for C4: the contract evaluated at `"5"`, `0`, `15`, `"abc"`. -/
theorem validate_depth_contract_witness :
    validate_depth (PyVal.vstr "5") = .ok 5
    ∧ validate_depth (PyVal.vint 0) = .error "Максимальная глубина анализа должна быть положительным числом"
    ∧ validate_depth (PyVal.vint 15) = .error "Максимальная глубина анализа не должна превышать 10"
    ∧ validate_depth (PyVal.vstr "abc") = .error "Максимальная глубина анализа должна быть целым числом" := by
  obtain ⟨-, h2, h3, h4, h5⟩ := validate_depth_contract
  exact ⟨h2 _ 5 (by decide) (by decide) (by decide), h3 _ 0 (by decide) (by decide),
    h4 _ 15 (by decide) (by decide),
    h5 _ "invalid literal for int with base 10" (by decide) (by decide)⟩

/-- Claim C9: `validate_depth` accepts float inputs by truncating toward
zero: whenever the truncation lies in `[1, 10]`, the truncated integer is
returned rather than a type error. -/
theorem validate_depth_float_truncation :
    ∀ q : ℚ, 1 ≤ ratTrunc q → ratTrunc q ≤ 10 →
      validate_depth (PyVal.vfloat q) = .ok (ratTrunc q) := by
  intro q h1 h10
  rw [validate_depth_ok (fun h => PyVal.noConfusion h)
      (show pyInt (PyVal.vfloat q) = Except.ok (ratTrunc q) from rfl),
    if_neg (by omega), if_neg (by omega)]

/-- Witness for C9: the float `10.9` (exact value `109/10`) validates to
the truncated depth `10`. -/
theorem validate_depth_float_truncation_witness :
    validate_depth (PyVal.vfloat (mkRat 109 10)) = .ok 10 := by
  have h := validate_depth_float_truncation (mkRat 109 10) (by decide) (by decide)
  rw [show ratTrunc (mkRat 109 10) = 10 from by decide] at h
  exact h

/-- Claim C7: `validate_repository` rejects every trimmed input starting
with `http://` or `https://` whose host segment (the text between the
scheme separator and the next `/`) contains no dot, accepts URL-shaped
inputs whose host segment does contain a dot, and accepts every string
that trims to a non-empty non-URL-shaped value as a filesystem-style
locator. -/
theorem validate_repository_contract :
    (∀ s, strStarts (pyStrip s) "http://" = true ∨ strStarts (pyStrip s) "https://" = true →
      (hostSegment (pyStrip s)).data.contains '.' = false →
      validate_repository (some s) = .error "Некорректный формат URL репозитория")
    ∧ (∀ s, strStarts (pyStrip s) "http://" = true ∨ strStarts (pyStrip s) "https://" = true →
      (hostSegment (pyStrip s)).data.contains '.' = true →
      validate_repository (some s) = .ok (pyStrip s))
    ∧ (∀ s, pyStrip s ≠ "" →
      strStarts (pyStrip s) "http://" = false → strStarts (pyStrip s) "https://" = false →
      validate_repository (some s) = .ok (pyStrip s)) := by
  have hne : ∀ s, strStarts (pyStrip s) "http://" = true ∨ strStarts (pyStrip s) "https://" = true →
      pyStrip s ≠ "" := by
    intro s h he
    rw [he] at h
    rcases h with h | h <;> exact absurd h (by decide)
  have hs : ∀ s : String, pyStrip s ≠ "" → s ≠ "" := by
    rintro s h rfl
    exact h rfl
  refine ⟨?_, ?_, ?_⟩
  · intro s hsch hdot
    have h1 := hne s hsch
    simp only [validate_repository]
    rw [if_neg (hs s h1), if_neg h1, if_pos (by rcases hsch with h | h <;> simp [h]),
      if_pos (by rw [hdot]; simp)]
  · intro s hsch hdot
    have h1 := hne s hsch
    simp only [validate_repository]
    rw [if_neg (hs s h1), if_neg h1, if_pos (by rcases hsch with h | h <;> simp [h]),
      if_neg (by rw [hdot, occurs_of_scheme hsch]; decide)]
  · intro s h1 hh hhs
    simp only [validate_repository]
    rw [if_neg (hs s h1), if_neg h1, if_neg (by simp [hh, hhs])]

/-- Witness for C7: the contract evaluated at `http://invalid-url` (no dot
in the host segment), `https://github.com/user/repo.git` (dotted host),
and the path `/path/to/repo`. -/
theorem validate_repository_contract_witness :
    validate_repository (some "http://invalid-url") = .error "Некорректный формат URL репозитория"
    ∧ validate_repository (some "https://github.com/user/repo.git") = .ok "https://github.com/user/repo.git"
    ∧ validate_repository (some "/path/to/repo") = .ok "/path/to/repo" := by
  obtain ⟨h1, h2, h3⟩ := validate_repository_contract
  refine ⟨h1 _ (Or.inl (by decide)) (by decide), ?_, ?_⟩
  · have h := h2 "https://github.com/user/repo.git" (Or.inr (by decide)) (by decide)
    rw [show pyStrip "https://github.com/user/repo.git" = "https://github.com/user/repo.git"
      from by decide] at h
    exact h
  · have h := h3 "/path/to/repo" (by decide) (by decide) (by decide)
    rw [show pyStrip "/path/to/repo" = "/path/to/repo" from by decide] at h
    exact h

/-- Claim C8: `validate_mode` is insensitive to letter case and
surrounding whitespace and idempotent: an accepted input gives the same
result as its lower-cased trimmed form, and re-validating the result
returns it unchanged. -/
theorem validate_mode_idempotent :
    ∀ s r, validate_mode (some s) = .ok r →
      validate_mode (some (pyStrip (pyLower s))) = .ok r
      ∧ validate_mode (some r) = .ok r := by
  intro s r h
  simp only [validate_mode] at h
  by_cases hm : pyStrip (pyLower s) ∈ valid_modes
  · rw [if_pos hm] at h
    have hr : pyStrip (pyLower s) = r := Except.ok.inj h
    rw [hr] at hm
    have hres : ∀ t, t ∈ valid_modes → validate_mode (some t) = .ok t := by
      intro t ht
      simp only [valid_modes, List.mem_cons, List.not_mem_nil, or_false] at ht
      rcases ht with rfl | rfl | rfl <;> decide
    exact ⟨by rw [hr]; exact hres r hm, hres r hm⟩
  · rw [if_neg hm] at h
    exact Except.noConfusion h

/-- Witness for C8: `"  PRODUCTION "` validates to the same result as its
lower-cased trimmed form and as `"production"`. -/
theorem validate_mode_idempotent_witness :
    validate_mode (some (pyStrip (pyLower "  PRODUCTION "))) = .ok "production"
    ∧ validate_mode (some "production") = .ok "production" :=
  validate_mode_idempotent "  PRODUCTION " "production" (by decide)

/-- Claim C10: the `"production"` default applies only to an absent
(`None`) mode; an input that trims to the empty string is not treated as
absent and is rejected as an unrecognized mode value. -/
theorem validate_mode_blank_rejected :
    validate_mode none = .ok "production"
    ∧ ∀ s, pyStrip (pyLower s) = "" →
        validate_mode (some s) =
          .error "Недопустимый режим работы: . Допустимые значения: production, development, test" := by
  refine ⟨rfl, fun s h => ?_⟩
  simp only [validate_mode]
  rw [h, if_neg (by decide)]
  rfl

/-- Witness for C10: the empty and the whitespace-only mode strings are
both rejected, not defaulted. -/
theorem validate_mode_blank_rejected_witness :
    validate_mode (some "") =
      .error "Недопустимый режим работы: . Допустимые значения: production, development, test"
    ∧ validate_mode (some "   ") =
      .error "Недопустимый режим работы: . Допустимые значения: production, development, test" :=
  ⟨validate_mode_blank_rejected.2 "" (by decide),
    validate_mode_blank_rejected.2 "   " (by decide)⟩

/-! ## Claim theorems: the manifest dependency extraction -/

theorem depLine_eq (acc : List TomlDep) (dm : String × String) :
    depLine acc dm =
      acc ++ [⟨pyStrip dm.1, interpretDepValue (pyStrip (beforeHash dm.2))⟩] := by
  simp only [depLine, interpretDepValue]
  by_cases h1 : (strStarts (pyStrip (beforeHash dm.2)) "\""
      && strEnds (pyStrip (beforeHash dm.2)) "\"") = true
  · rw [if_pos h1, if_pos h1]
  · rw [if_neg h1, if_neg h1]
    by_cases h2 : (strStarts (pyStrip (beforeHash dm.2)) "\x7b"
        && strEnds (pyStrip (beforeHash dm.2)) "\x7d") = true
    · rw [if_pos h2, if_pos h2]
      cases hv : searchVersion (pyStrip (beforeHash dm.2)) with
      | some v => rfl
      | none => rfl
    · rw [if_neg h2, if_neg h2]

theorem foldl_app_one {α β : Type} (f : α → β) (l : List α) (acc : List β) :
    l.foldl (fun a x => a ++ [f x]) acc = acc ++ l.map f := by
  induction l generalizing acc with
  | nil => simp
  | cons x xs ih => simp [List.foldl_cons, ih]

theorem foldl_depLine (l : List (String × String)) (acc : List TomlDep) :
    l.foldl depLine acc =
      acc ++ l.map (fun dm => ⟨pyStrip dm.1, interpretDepValue (pyStrip (beforeHash dm.2))⟩) := by
  have hdl : depLine = fun acc dm =>
      acc ++ [(⟨pyStrip dm.1, interpretDepValue (pyStrip (beforeHash dm.2))⟩ : TomlDep)] :=
    funext fun a => funext fun dm => depLine_eq a dm
  rw [hdl]
  exact foldl_app_one _ l acc

theorem extract_foldl_eq (secs : List (String × String)) (acc : List TomlDep) :
    secs.foldl
      (fun deps sec =>
        if pyStrip sec.1 == "dependencies" || strStarts (pyStrip sec.1) "dependencies." then
          (findAssigns sec.2).foldl depLine deps
        else deps)
      acc
    = acc ++ ((secs.filter
        (fun sec => pyStrip sec.1 == "dependencies" || strStarts (pyStrip sec.1) "dependencies.")).map
      (fun sec => (findAssigns sec.2).map
        (fun dm => ⟨pyStrip dm.1, interpretDepValue (pyStrip (beforeHash dm.2))⟩))).flatten := by
  induction secs generalizing acc with
  | nil => simp
  | cons sec rest ih =>
    simp only [List.foldl_cons, List.filter_cons]
    by_cases hp : (pyStrip sec.1 == "dependencies" || strStarts (pyStrip sec.1) "dependencies.") = true
    · rw [if_pos hp, if_pos hp, foldl_depLine, ih]
      simp [List.append_assoc]
    · rw [if_neg hp, if_neg hp, ih]

/-- Claim C6: the manifest extraction interprets every dependency
assignment by the three value shapes (double-quoted literal, inline table
searched for `version = "..."`, anything else as `unknown`) and returns
the records in encounter order, without deduplicating repeated names
across dependency sections.  Stated as: the extraction equals the
specification's filter/map characterization on every manifest, together
with a concrete manifest in which the same name occurs in two dependency
sections and both occurrences are kept in order. -/
theorem extract_dependencies_characterization :
    (∀ content, extract_dependencies_from_cargo_toml content = cargoDepsSpec content)
    ∧ extract_dependencies_from_cargo_toml
        "[dependencies]\nserde = \"1.0\"\n[dependencies.extra]\nserde = \x7b version = \"2.0\" \x7d\n"
      = [⟨"serde", "1.0"⟩, ⟨"serde", "2.0"⟩] := by
  refine ⟨fun content => ?_, by decide⟩
  have h := extract_foldl_eq (findSections content) []
  simpa [extract_dependencies_from_cargo_toml, cargoDepsSpec] using h

/-! ## Claim theorems: the Registry Client -/

/-- Claim C1 counterexample: with a registry answering the metadata call
with status 404, version resolution in `get_direct_dependencies_from_crates`
fails, but the diagnostic is the fixed string
`Не удалось получить данные пакета`, in which the received status code
`404` does not occur — contrary to the claim that the diagnostic names
the status code. -/
theorem registry_error_names_no_status_code :
    get_direct_dependencies_from_crates "serde" "https://crates.io/api/v1/crates/"
      (fun _ => ⟨404, Json.null⟩)
      = .error (.runtimeError "Не удалось получить данные пакета")
    ∧ strOccurs "Не удалось получить данные пакета" "404" = false :=
  ⟨rfl, by decide⟩

/-- Claim C1 as amended: for every registry metadata response with a
non-2xx status code, the version-resolution step of
`get_direct_dependencies_from_crates` fails with a registry error whose
diagnostic is the fixed message `Не удалось получить данные пакета`
(which does not name the status code), and no dependency records are
produced. -/
theorem registry_error_fixed_message :
    ∀ (crate_name repository_url : String) (http : String → HttpResponse),
      ¬(200 ≤ (http (repository_url ++ crate_name)).status
          ∧ (http (repository_url ++ crate_name)).status < 300) →
      get_direct_dependencies_from_crates crate_name repository_url http
        = .error (.runtimeError "Не удалось получить данные пакета") := by
  intro cn ru http h
  have hne : (http (ru ++ cn)).status ≠ 200 := by omega
  simp only [get_direct_dependencies_from_crates]
  rw [if_pos hne]

/-- Witness for the amended C1: a registry answering 500 everywhere. -/
theorem registry_error_fixed_message_witness :
    get_direct_dependencies_from_crates "tokio" "base/" (fun _ => ⟨500, Json.null⟩)
      = .error (.runtimeError "Не удалось получить данные пакета") :=
  registry_error_fixed_message "tokio" "base/" (fun _ => ⟨500, Json.null⟩) (by decide)

/-- Claim C5 counterexample: for a dependency object carrying no
`default_features` key, the built record's `default_features` field is
`None` (absent), not the empty object the claim states; and for a
dependency object carrying no `optional` key, the mapping raises
`KeyError` instead of defaulting `optional` to false. -/
theorem dependency_record_defaults_counterexample :
    mkDepRecord (Json.obj [("crate_id", Json.str "serde_derive"), ("req", Json.str "^1.0"),
        ("optional", Json.bool false)])
      = .ok { name := Json.str "serde_derive", version := Json.str "^1.0",
              optional := Json.bool false, default_features := Json.null,
              features := Json.arr [], kind := Json.null }
    ∧ Json.null ≠ Json.obj []
    ∧ mkDepRecord (Json.obj [("crate_id", Json.str "syn"), ("req", Json.str "^2.0")])
      = .error (.keyError "optional") :=
  ⟨rfl, fun h => Json.noConfusion h, rfl⟩

/-- Claim C5 as amended: each dependency object of a successful
dependencies response is mapped to a record with name from `crate_id`,
version-requirement from `req`, and `optional` copied from the required
`optional` field (a missing `optional` is an error, not a false default);
`default_features`, `features` and `kind` are copied when present and
otherwise defaulted to `None` (absent), `[]`, and `None` (absent)
respectively; and on well-shaped 200 responses the whole resolution is
exactly this mapping over the response's dependency array. -/
theorem dependency_record_mapping :
    (∀ d n req opt, jGet d "crate_id" = .ok n → jGet d "req" = .ok req →
      jGet d "optional" = .ok opt →
      mkDepRecord d = .ok
        { name := n, version := req, optional := opt,
          default_features := jGetD d "default_features" Json.null,
          features := jGetD d "features" (Json.arr []),
          kind := jGetD d "kind" Json.null })
    ∧ (∀ (crate base : String) (http : String → HttpResponse) (crateObj ver : Json)
        (ds : List Json),
        (http (base ++ crate)).status = 200 →
        jGet (http (base ++ crate)).body "crate" = .ok crateObj →
        jGet crateObj "max_version" = .ok ver →
        (http (base ++ crate ++ "/" ++ pyStr ver ++ "/dependencies")).status = 200 →
        jGet (http (base ++ crate ++ "/" ++ pyStr ver ++ "/dependencies")).body "dependencies"
          = .ok (Json.arr ds) →
        get_direct_dependencies_from_crates crate base http = ds.mapM mkDepRecord) := by
  constructor
  · intro d n req opt h1 h2 h3
    simp only [mkDepRecord, h1, h2, h3]
    rfl
  · intro crate base http crateObj ver ds hs1 hcrate hver hs2 hdeps
    simp [get_direct_dependencies_from_crates, hs1, hcrate, hver, hs2, hdeps]

/-- Witness for the amended C5: a one-dependency response mapped end to
end, and the record built for a concrete dependency object. -/
theorem dependency_record_mapping_witness :
    mkDepRecord (Json.obj [("crate_id", Json.str "serde_json"), ("req", Json.str "^1.0"),
        ("optional", Json.bool true)])
      = .ok { name := Json.str "serde_json", version := Json.str "^1.0",
              optional := Json.bool true, default_features := Json.null,
              features := Json.arr [], kind := Json.null }
    ∧ get_direct_dependencies_from_crates "serde" "base/"
        (fun url =>
          if url = "base/serde" then
            ⟨200, Json.obj [("crate", Json.obj [("max_version", Json.str "1.0.0")])]⟩
          else if url = "base/serde/1.0.0/dependencies" then
            ⟨200, Json.obj [("dependencies", Json.arr [Json.obj [("crate_id", Json.str "serde_json"),
              ("req", Json.str "^1.0"), ("optional", Json.bool true)]])]⟩
          else ⟨404, Json.null⟩)
      = ([Json.obj [("crate_id", Json.str "serde_json"), ("req", Json.str "^1.0"),
          ("optional", Json.bool true)]] : List Json).mapM mkDepRecord := by
  obtain ⟨h1, h2⟩ := dependency_record_mapping
  exact ⟨h1 _ _ _ _ rfl rfl rfl, h2 "serde" "base/" _
    (Json.obj [("max_version", Json.str "1.0.0")]) (Json.str "1.0.0") _ rfl rfl rfl rfl rfl⟩

/-! ## Claim theorems: the archive extractor -/

/-- Claim C2: when unpacking succeeds but produces no top-level entries,
`extract_cargo_toml_from_archive` fails with the archive-is-empty error;
and when the first top-level extracted directory holds no `Cargo.toml`,
it fails with the manifest-not-found error. -/
theorem extract_archive_error_contract :
    (∀ (env : ExtractEnv) (temp_dir : String), env.tarOk = true → env.entries = [] →
      (extract_cargo_toml_from_archive env temp_dir).1
        = .exc (.fileNotFoundError "Архив пустой"))
    ∧ (∀ (env : ExtractEnv) (temp_dir d : String) (rest : List String),
        env.tarOk = true → env.entries = d :: rest →
        (temp_dir ++ "/" ++ d ++ "/" ++ "Cargo.toml") ∉ env.files →
        (extract_cargo_toml_from_archive env temp_dir).1
          = .exc (.fileNotFoundError "Файл Cargo.toml не найден в архиве пакета")) := by
  constructor
  · intro env td ht he
    simp [extract_cargo_toml_from_archive, extractTryBody, ht, he]
  · intro env td d rest ht he hf
    simp [extract_cargo_toml_from_archive, extractTryBody, ht, he, hf]

/-- Witness for C2: an archive with no entries, and an archive whose only
top-level directory lacks the manifest. -/
theorem extract_archive_error_contract_witness :
    (extract_cargo_toml_from_archive ⟨true, "", [], []⟩ "/scratch").1
      = .exc (.fileNotFoundError "Архив пустой")
    ∧ (extract_cargo_toml_from_archive ⟨true, "", ["pkg-1.0.0"], []⟩ "/scratch").1
      = .exc (.fileNotFoundError "Файл Cargo.toml не найден в архиве пакета") := by
  obtain ⟨h1, h2⟩ := extract_archive_error_contract
  exact ⟨h1 _ _ rfl rfl, h2 _ _ "pkg-1.0.0" [] rfl rfl (by decide)⟩

/-- Claim C3: on every exit path of `extract_cargo_toml_from_archive` —
success, extraction failure, or unexpected unpacking error — the
temporary archive file written at the start is removed: its final
existence flag is false for every environment and scratch directory. -/
theorem extract_archive_temp_removed :
    ∀ (env : ExtractEnv) (temp_dir : String),
      (extract_cargo_toml_from_archive env temp_dir).2 = false :=
  fun _ _ => rfl
